import Mathlib

/-!
Verification of the smart-search filter core: the schema operator table,
the filter AST, the condition compiler, the evaluator and the chip-list
editing operations, embedded from `src/App.tsx` and
`src/components/SmartSearchBar.tsx`.

JavaScript dynamic values are modelled by the `Value` type below; numbers
are modelled as integers (every number the program manipulates — record
fields, epoch milliseconds — is an integer), with `nan` as an explicit
value and numeric coercion of strings returning `Option ℚ` (`none` = NaN).
-/

namespace SmartSearch

/-- Dynamic scalar value of the JavaScript runtime as the program uses it:
a string, an (integer) number, the number `NaN`, or `undefined`
(a record access on a missing field). -/
inductive Value where
  | str : String → Value
  | num : Int → Value
  | nan : Value
  | undef : Value
deriving DecidableEq

/-- JS `String(v)` coercion for the values in `Value`. -/
def jsString : Value → String
  | .str s => s
  | .num n => toString n
  | .nan => "NaN"
  | .undef => "undefined"

/-- Numeric value of a list of decimal digit characters. -/
def digitsVal (cs : List Char) : Nat :=
  cs.foldl (fun a c => a * 10 + (c.toNat - 48)) 0

/-- JS `Number(s)` on a string, modelled for plain decimal literals:
whitespace is trimmed, the empty string is 0, an optional sign is
followed by digits with an optional fractional part. Exotic forms
(exponents, hex, Infinity) are outside the model; they never arise in
this program. `none` models `NaN`. -/
def jsParseNum (s : String) : Option ℚ :=
  let cs := ((s.toList.dropWhile Char.isWhitespace).reverse.dropWhile
    Char.isWhitespace).reverse
  match cs with
  | [] => some 0
  | _ =>
    let sgn : ℚ := match cs with
      | '-' :: _ => -1
      | _ => 1
    let body := match cs with
      | '-' :: rest => rest
      | '+' :: rest => rest
      | _ => cs
    let ip := body.takeWhile Char.isDigit
    let rest := body.dropWhile Char.isDigit
    match rest with
    | [] => if ip.isEmpty then none else some (sgn * (digitsVal ip : ℚ))
    | '.' :: fp =>
      if fp.all Char.isDigit && !(ip.isEmpty && fp.isEmpty) then
        some (sgn * ((digitsVal ip : ℚ) +
          (digitsVal fp : ℚ) / ((10 : ℚ) ^ fp.length)))
      else none
    | _ => none

/-- JS `Number(v)` coercion on a dynamic value; `none` models `NaN`. -/
def jsNumber : Value → Option ℚ
  | .str s => jsParseNum s
  | .num n => some (n : ℚ)
  | .nan => none
  | .undef => none

/-- Whether `needle` is a prefix of `hay` (character lists). -/
def listHasPrefix : List Char → List Char → Bool
  | _, [] => true
  | [], _ :: _ => false
  | h :: hs, n :: ns => h == n && listHasPrefix hs ns

/-- Whether `needle` occurs as a contiguous substring of `hay`
(JS `String.prototype.includes`). -/
def listHasSub : List Char → List Char → Bool
  | [], needle => listHasPrefix [] needle
  | h :: hs, needle => listHasPrefix (h :: hs) needle || listHasSub hs needle

/-- JS `toLowerCase` modelled per character. -/
def lowerChars (s : String) : List Char := s.toList.map Char.toLower

/-- Numeric branch of `compare`: JS `Number(left) OP Number(right)` where a
`NaN` (`none`) operand makes every relational comparison false. -/
def relCompare (f : ℚ → ℚ → Bool) (left right : Value) : Bool :=
  match jsNumber left, jsNumber right with
  | some a, some b => f a b
  | _, _ => false

/-- `compare(operator, left, right)` from `src/App.tsx` lines 16–27:
a switch on the operator string with a permissive `false` default. -/
def compare (operator : String) (left right : Value) : Bool :=
  if operator = "contains" then
    listHasSub (lowerChars (jsString left)) (lowerChars (jsString right))
  else if operator = "=" then jsString left == jsString right
  else if operator = "!=" then jsString left != jsString right
  else if operator = ">" then relCompare (fun a b => decide (a > b)) left right
  else if operator = ">=" then relCompare (fun a b => decide (a ≥ b)) left right
  else if operator = "<" then relCompare (fun a b => decide (a < b)) left right
  else if operator = "<=" then relCompare (fun a b => decide (a ≤ b)) left right
  else false

/-- Gregorian leap-year rule. -/
def isLeap (y : Nat) : Bool :=
  (y % 4 == 0 && y % 100 != 0) || y % 400 == 0

/-- Number of days in month `m` of year `y`. -/
def daysInMonth (y m : Nat) : Nat :=
  if m = 2 then (if isLeap y then 29 else 28)
  else if m = 4 || m = 6 || m = 9 || m = 11 then 30
  else 31

/-- Days from the Unix epoch (1970-01-01) to the civil date `y-m-d`
(the standard days-from-civil computation, using floor division). -/
def daysFromCivil (y m d : Int) : Int :=
  let y2 := if m ≤ 2 then y - 1 else y
  let era := y2 / 400
  let yoe := y2 - era * 400
  let mp := if 2 < m then m - 3 else m + 9
  let doy := (153 * mp + 2) / 5 + d - 1
  let doe := yoe * 365 + yoe / 4 - yoe / 100 + doy
  era * 146097 + doe - 719468

/-- Whether a string has the shape `YYYY-MM-DD` — four digits, hyphen, two
digits, hyphen, two digits — the regular expression
`/^\d{4}-\d{2}-\d{2}$/` of `src/App.tsx` line 45. -/
def isDateShape (s : String) : Bool :=
  match s.toList with
  | [y1, y2, y3, y4, '-', m1, m2, '-', d1, d2] =>
    y1.isDigit && y2.isDigit && y3.isDigit && y4.isDigit &&
    m1.isDigit && m2.isDigit && d1.isDigit && d2.isDigit
  | _ => false

/-- JS `new Date(s).getTime()` for a `YYYY-MM-DD` string: UTC midnight of
the civil date in epoch milliseconds, or `none` (`NaN`, an Invalid Date)
when the string is not a shape-valid, calendar-valid date. -/
def jsDateMs (s : String) : Option Int :=
  match s.toList with
  | [y1, y2, y3, y4, '-', m1, m2, '-', d1, d2] =>
    if y1.isDigit && y2.isDigit && y3.isDigit && y4.isDigit &&
       m1.isDigit && m2.isDigit && d1.isDigit && d2.isDigit then
      let y := digitsVal [y1, y2, y3, y4]
      let m := digitsVal [m1, m2]
      let d := digitsVal [d1, d2]
      if 1 ≤ m && m ≤ 12 && 1 ≤ d && d ≤ daysInMonth y m then
        some (daysFromCivil y m d * 86400000)
      else none
    else none
  | _ => none

/-- JS `new Date(v).getTime()` as used on line 46 of `src/App.tsx`: for a
string, parse it as a date (`jsDateMs`); a number is an epoch-millisecond
timestamp already; `NaN`/`undefined` give an Invalid Date (`nan`). -/
def dateGetTime : Value → Value
  | .str s => match jsDateMs s with
    | some ms => .num ms
    | none => .nan
  | .num n => .num n
  | .nan => .nan
  | .undef => .nan

/-- Group combinator of the AST: `'and' | 'or'`. -/
inductive Combinator where
  | and : Combinator
  | or : Combinator
deriving DecidableEq

/-- The `AstNode` union of `SmartSearchBar.tsx` lines 16–18: a condition
leaf `{field, op, value}` (value always a raw string) or a group with a
combinator and an ordered list of children. -/
inductive AstNode where
  | condition : (field : String) → (op : String) → (value : String) → AstNode
  | group : Combinator → List AstNode → AstNode

/-- A record: an opaque mapping from field key to a dynamic scalar
(`row[field]` in JS; a missing field reads as `undefined`). -/
def RowT : Type := String → Value

/-- `evaluate(row, node)` from `src/App.tsx` lines 38–49: groups map
`evaluate` over the children and combine with every/some; a condition
reads `row[field]`, takes the date branch when both sides have the
`YYYY-MM-DD` shape, and otherwise compares the raw values. -/
def evaluate (row : RowT) : AstNode → Bool
  | .group op children =>
    let evals := children.attach.map (fun c => evaluate row c.1)
    match op with
    | .and => evals.all id
    | .or => evals.any id
  | .condition field op value =>
    let v := row field
    if isDateShape (jsString v) && isDateShape value then
      compare op (dateGetTime v) (dateGetTime (.str value))
    else
      compare op v (.str value)
decreasing_by
  simp_wf
  have := List.sizeOf_lt_of_mem c.2
  omega

/-- `applyFilter(ast)` from `src/App.tsx` lines 29–36, with the row set
made a parameter: a null AST keeps every row; a group keeps the rows on
which every child evaluates true (the group's own combinator is not
consulted); a bare condition at top level also keeps every row. -/
def applyFilter (rows : List RowT) (ast : Option AstNode) : List RowT :=
  match ast with
  | none => rows
  | some (.group _ children) =>
    rows.filter (fun row => children.all (fun c => evaluate row c))
  | some (.condition _ _ _) => rows

/-- Index-aware filter underlying `removeChip`: keeps the elements whose
index (counting from `i`) differs from `idx`. -/
def removeChipAux (idx : Nat) : Nat → List AstNode → List AstNode
  | _, [] => []
  | i, c :: cs =>
    if i = idx then removeChipAux idx (i + 1) cs
    else c :: removeChipAux idx (i + 1) cs

/-- `removeChip(idx)` from `SmartSearchBar.tsx` lines 191–193:
`prev.filter((_, i) => i !== idx)` over the chip list. -/
def removeChip (chips : List AstNode) (idx : Nat) : List AstNode :=
  removeChipAux idx 0 chips

/-- Follows the spec's words for `removeChild(group, index)` (§4.2): fails
(`none`, standing for `IndexOutOfRange`) when `index` is not within
`[0, children.length)`, and otherwise removes exactly the child at
`index`. Stated for comparison with the code's `removeChip`. -/
def removeChildClaimed (children : List AstNode) (idx : Nat) :
    Option (List AstNode) :=
  if idx < children.length then
    some (children.take idx ++ children.drop (idx + 1))
  else none

/-- Field types of the schema (`SmartSearchBar.tsx` line 4). -/
inductive FieldType where
  | string : FieldType
  | number : FieldType
  | date : FieldType
  | enum : FieldType
  | boolean : FieldType
  | relation : FieldType
deriving DecidableEq

/-- Operator list constants of `SmartSearchBar.tsx` lines 26–30. -/
def STRING_OPS : List String := ["contains", "=", "!="]

/-- Operators permitted on number fields. -/
def NUMBER_OPS : List String := ["=", "!=", ">", ">=", "<", "<="]

/-- Operators permitted on date fields (`DATE_OPS = NUMBER_OPS`). -/
def DATE_OPS : List String := NUMBER_OPS

/-- Operators permitted on enum and relation fields. -/
def ENUM_OPS : List String := ["=", "!="]

/-- Operators permitted on boolean fields. -/
def BOOL_OPS : List String := ["=", "!="]

/-- `getOps(type)` from `SmartSearchBar.tsx` lines 32–46. -/
def getOps : FieldType → List String
  | .string => STRING_OPS
  | .number => NUMBER_OPS
  | .date => DATE_OPS
  | .enum => ENUM_OPS
  | .relation => ENUM_OPS
  | .boolean => BOOL_OPS

/-- `commitCondition(fieldName, op, value)` from `SmartSearchBar.tsx`
lines 113–120 (the state bookkeeping aside): builds the condition node
unconditionally — the value is never inspected. -/
def commitCondition (fieldName op value : String) : AstNode :=
  .condition fieldName op value

/-- Operator gate of `handleKeyDown` (`SmartSearchBar.tsx` lines 165–172):
on Enter with a chosen operator, accept it only when it is in
`getOps(field.type)`; otherwise nothing is committed. -/
def enterOp (t : FieldType) (chosen : String) : Option String :=
  if (getOps t).contains chosen then some chosen else none

/-- Condition building as the code implements it: the operator gate of
`handleKeyDown` followed by `commitCondition`. `none` is the
`InvalidOperator` rejection; a produced node always carries the raw
value. -/
def buildCondition (t : FieldType) (fieldName op value : String) :
    Option AstNode :=
  (enterOp t op).map (fun o => commitCondition fieldName o value)

/-- Model state for `useOptions` (`SmartSearchBar.tsx` lines 52–74):
`latest` is the generation of the most recently issued lookup — the only
effect whose `alive` flag is still true, since the effect cleanup sets
`alive = false` on the previous lookup whenever a new one is issued —
and `options` is the option list currently applied. -/
structure OptionsState where
  latest : Nat
  options : List String

/-- Events of the option-lookup race: issuing a new lookup (the effect
re-runs: the previous generation's cleanup has fired), or a lookup of
generation `g` resolving with `result`. -/
inductive OptEvent where
  | issue : OptEvent
  | resolve : Nat → List String → OptEvent

/-- One step of the `useOptions` model. Issuing bumps the live generation
(killing every older one); a resolution applies its result only if its
generation is still the live one (`if (alive) setOptions(result)`). -/
def optStep (s : OptionsState) : OptEvent → OptionsState
  | .issue => { s with latest := s.latest + 1 }
  | .resolve g result =>
    if g = s.latest then { s with options := result } else s

/-- Example record `{x: "2025-03-01"}` (other fields read as `undefined`). -/
def exRow : RowT := fun fld => if fld = "x" then Value.str "2025-03-01" else Value.undef

/-- Example record `{age: 30}` (other fields read as `undefined`). -/
def ageRow : RowT := fun fld => if fld = "age" then Value.num 30 else Value.undef

/-! Unfolding lemmas for the well-founded definition of `evaluate`. -/

theorem evaluate_condition (row : RowT) (f op v : String) :
    evaluate row (.condition f op v) =
      if isDateShape (jsString (row f)) && isDateShape v then
        compare op (dateGetTime (row f)) (dateGetTime (.str v))
      else
        compare op (row f) (.str v) := by
  rw [evaluate.eq_def]

theorem all_id_map {α : Type} (f : α → Bool) (l : List α) :
    (l.map f).all id = l.all f := by
  induction l with
  | nil => rfl
  | cons a t ih => simp [List.all_cons, ih]

theorem any_id_map {α : Type} (f : α → Bool) (l : List α) :
    (l.map f).any id = l.any f := by
  induction l with
  | nil => rfl
  | cons a t ih => simp [List.any_cons, ih]

theorem evaluate_and (row : RowT) (children : List AstNode) :
    evaluate row (.group .and children) =
      children.all (fun c => evaluate row c) := by
  rw [evaluate.eq_def]
  simp
  exact all_id_map (fun c => evaluate row c) children

theorem evaluate_or (row : RowT) (children : List AstNode) :
    evaluate row (.group .or children) =
      children.any (fun c => evaluate row c) := by
  rw [evaluate.eq_def]
  simp
  exact any_id_map (fun c => evaluate row c) children

/-- Relational comparison with a NaN operand is false. -/
theorem relCompare_nan (f : ℚ → ℚ → Bool) (l r : Value)
    (h : jsNumber l = none ∨ jsNumber r = none) :
    relCompare f l r = false := by
  rcases h with h | h
  · rw [relCompare, h]
  · cases hL : jsNumber l <;> rw [relCompare, hL, h]

/-- String bang-equality is the boolean negation of string equality. -/
theorem compare_bang (l r : Value) :
    compare "!=" l r = !(compare "=" l r) := by
  simp [compare, bne]

/-! Lemmas about the index filter underlying `removeChip`. -/

theorem removeChipAux_gt (l : List AstNode) :
    ∀ i idx : Nat, idx < i → removeChipAux idx i l = l := by
  induction l with
  | nil => intro i idx _; rfl
  | cons c cs ih =>
    intro i idx h
    simp only [removeChipAux]
    rw [if_neg (by omega), ih (i + 1) idx (by omega)]

theorem removeChipAux_oob (l : List AstNode) :
    ∀ i idx : Nat, i + l.length ≤ idx → removeChipAux idx i l = l := by
  induction l with
  | nil => intro i idx _; rfl
  | cons c cs ih =>
    intro i idx h
    simp only [List.length_cons] at h
    simp only [removeChipAux]
    rw [if_neg (by omega), ih (i + 1) idx (by omega)]

theorem removeChipAux_hit (l : List AstNode) :
    ∀ i k : Nat, k < l.length →
      removeChipAux (i + k) i l = l.take k ++ l.drop (k + 1) := by
  induction l with
  | nil => intro i k h; simp at h
  | cons c cs ih =>
    intro i k h
    cases k with
    | zero =>
      simp only [removeChipAux]
      rw [if_pos (by omega), removeChipAux_gt cs (i + 1) (i + 0) (by omega)]
      simp
    | succ k' =>
      simp only [removeChipAux]
      rw [if_neg (by omega)]
      have h2 : k' < cs.length := by simpa using h
      have harith : i + (k' + 1) = (i + 1) + k' := by omega
      rw [harith, ih (i + 1) k' h2]
      simp

/-!  The claims. -/

/-- C1 counterexample: the claim says `removeChild(group, index)` fails
with `IndexOutOfRange` for an out-of-range index, but the code's
`removeChip` never fails: at index 1 on a one-element chip list it
returns the list unchanged instead of the claimed failure. -/
theorem removeChip_out_of_range_cex :
    some (removeChip [AstNode.condition "age" ">" "30"] 1) ≠
      removeChildClaimed [AstNode.condition "age" ">" "30"] 1 := by
  simp [removeChip, removeChipAux, removeChildClaimed]

/-- C1 (amended): `removeChip` never fails; for an in-range index it
returns the chip list with the element at that index removed and all
other elements kept in order, and for an out-of-range index it returns
the chip list unchanged. -/
theorem removeChip_spec (chips : List AstNode) (idx : Nat) :
    (idx < chips.length →
      removeChip chips idx = chips.take idx ++ chips.drop (idx + 1)) ∧
    (chips.length ≤ idx → removeChip chips idx = chips) := by
  constructor
  · intro h
    have hx := removeChipAux_hit chips 0 idx h
    simpa [removeChip] using hx
  · intro h
    exact removeChipAux_oob chips 0 idx (by omega)

/-- C1 witness: removing index 0 from a two-chip list keeps exactly the
second chip; removing index 5 from a one-chip list returns it unchanged. -/
theorem removeChip_spec_witness :
    removeChip [AstNode.condition "a" "=" "1", AstNode.condition "b" "=" "2"] 0 =
      [AstNode.condition "b" "=" "2"] ∧
    removeChip [AstNode.condition "a" "=" "1"] 5 =
      [AstNode.condition "a" "=" "1"] := by
  constructor
  · have h := (removeChip_spec
      [AstNode.condition "a" "=" "1", AstNode.condition "b" "=" "2"] 0).1
      (by simp)
    simpa using h
  · exact (removeChip_spec [AstNode.condition "a" "=" "1"] 5).2 (by simp)

/-- C2: condition building (the operator gate of `handleKeyDown` followed
by `commitCondition`) fails exactly when the operator is not in the
allowed set `getOps` for the field's type, and for an allowed operator it
produces the condition node carrying the raw value unchanged — the value
(numeric-looking or not) never causes a failure. -/
theorem buildCondition_invalid_operator (t : FieldType) (f op v : String) :
    (buildCondition t f op v = none ↔ op ∉ getOps t) ∧
    (buildCondition t f op v = some (AstNode.condition f op v) ↔
      op ∈ getOps t) := by
  by_cases h : op ∈ getOps t
  · have hc : (getOps t).contains op = true := by
      simpa [List.elem_iff] using h
    simp [buildCondition, enterOp, commitCondition, hc, h]
  · have hc : (getOps t).contains op = false := by
      cases hcc : (getOps t).contains op
      · rfl
      · exact absurd (List.elem_iff.mp hcc) h
    simp [buildCondition, enterOp, commitCondition, hc, h]

/-- C3: whenever the string coercions of both the record value and the
condition value have the `YYYY-MM-DD` shape, `evaluate` compares the two
`getTime` epoch-millisecond values (no schema is consulted — `evaluate`
has no schema parameter, so the branch fires for every field); when both
parse as valid calendar dates with epoch milliseconds `ms1`, `ms2`, each
relational operator decides exactly the numeric comparison of `ms1` and
`ms2`. -/
theorem evaluate_date_heuristic (row : RowT) (f op v : String)
    (h1 : isDateShape (jsString (row f)) = true)
    (h2 : isDateShape v = true) :
    evaluate row (.condition f op v) =
      compare op (dateGetTime (row f)) (dateGetTime (.str v)) ∧
    (∀ ms1 ms2 : Int, dateGetTime (row f) = .num ms1 →
      dateGetTime (Value.str v) = .num ms2 →
      (op = ">" → evaluate row (.condition f op v) = decide (ms1 > ms2)) ∧
      (op = ">=" → evaluate row (.condition f op v) = decide (ms1 ≥ ms2)) ∧
      (op = "<" → evaluate row (.condition f op v) = decide (ms1 < ms2)) ∧
      (op = "<=" → evaluate row (.condition f op v) = decide (ms1 ≤ ms2))) := by
  have hbr : evaluate row (.condition f op v) =
      compare op (dateGetTime (row f)) (dateGetTime (.str v)) := by
    rw [evaluate_condition]
    simp [h1, h2]
  refine ⟨hbr, ?_⟩
  intro ms1 ms2 hm1 hm2
  rw [hm1, hm2] at hbr
  refine ⟨?_, ?_, ?_, ?_⟩ <;> intro hop <;> subst hop <;> rw [hbr] <;>
    simp [compare, relCompare, jsNumber]

/-- C3 witness: on the record `{x: "2025-03-01"}` (field `x` not declared
anything), the condition `x > "2025-02-01"` takes the date branch and
holds. -/
theorem evaluate_date_heuristic_witness :
    evaluate exRow (AstNode.condition "x" ">" "2025-02-01") =
      compare ">" (dateGetTime (exRow "x"))
        (dateGetTime (Value.str "2025-02-01")) ∧
    evaluate exRow (AstNode.condition "x" ">" "2025-02-01") = true := by
  have h := evaluate_date_heuristic exRow "x" ">" "2025-02-01"
    (by decide) (by decide)
  refine ⟨h.1, ?_⟩
  rw [h.1]
  decide

/-- C4: `applyFilter` gives a top-level group conjunctive (every-child)
semantics whatever its combinator: with combinator `or` a row is kept iff
every child evaluates true on it, an empty top-level or-group keeps every
row — even though `evaluate` gives an or-group any-child semantics. -/
theorem applyFilter_top_level_and_semantics (rows : List RowT) (row : RowT)
    (c : Combinator) (children : List AstNode) :
    applyFilter rows (some (.group c children)) =
      rows.filter (fun r => children.all (fun n => evaluate r n)) ∧
    (row ∈ applyFilter rows (some (.group .or children)) ↔
      row ∈ rows ∧ ∀ n ∈ children, evaluate row n = true) ∧
    applyFilter rows (some (.group .or [])) = rows ∧
    evaluate row (.group .or children) =
      children.any (fun n => evaluate row n) := by
  refine ⟨rfl, ?_, ?_, evaluate_or row children⟩
  · simp [applyFilter, List.mem_filter, List.all_eq_true]
  · simp [applyFilter]

/-- C5: the empty and-group evaluates to true and the empty or-group to
false, on every record. -/
theorem evaluate_empty_group (row : RowT) :
    evaluate row (.group .and []) = true ∧
    evaluate row (.group .or []) = false := by
  constructor
  · rw [evaluate_and]; rfl
  · rw [evaluate_or]; rfl

/-- C6: each relational operator returns false whenever either operand's
numeric parse is NaN; in particular, on the record `{age: 30}` the
condition `age OP "abc"` is false for every relational operator. -/
theorem relational_nan_false (op : String) (l r : Value)
    (hop : op = ">" ∨ op = ">=" ∨ op = "<" ∨ op = "<=")
    (hnan : jsNumber l = none ∨ jsNumber r = none) :
    compare op l r = false ∧
    (evaluate ageRow (.condition "age" ">" "abc") = false ∧
     evaluate ageRow (.condition "age" ">=" "abc") = false ∧
     evaluate ageRow (.condition "age" "<" "abc") = false ∧
     evaluate ageRow (.condition "age" "<=" "abc") = false) := by
  constructor
  · rcases hop with rfl | rfl | rfl | rfl <;>
      simp [compare, relCompare_nan _ _ _ hnan]
  · refine ⟨?_, ?_, ?_, ?_⟩ <;> (rw [evaluate_condition]; decide)

/-- C6 witness: `compare(">", "abc", 30)` is false because the left
operand parses as NaN. -/
theorem relational_nan_false_witness :
    compare ">" (Value.str "abc") (Value.num 30) = false :=
  (relational_nan_false ">" (Value.str "abc") (Value.num 30) (Or.inl rfl)
    (Or.inl (by decide))).1

/-- C7: for every operator string outside the seven known ones, `compare`
returns false on all operands (the permissive-false default branch; being
a total function, it never throws). -/
theorem compare_unknown_operator (op : String) (l r : Value)
    (h : op ∉ (["contains", "=", "!=", ">", ">=", "<", "<="] : List String)) :
    compare op l r = false := by
  simp only [List.mem_cons, List.not_mem_nil, or_false, not_or] at h
  obtain ⟨h1, h2, h3, h4, h5, h6, h7⟩ := h
  simp [compare, h1, h2, h3, h4, h5, h6, h7]

/-- C7 witness: the unknown operator `startsWith` evaluates to false. -/
theorem compare_unknown_operator_witness :
    compare "startsWith" (Value.str "alpha") (Value.str "al") = false :=
  compare_unknown_operator "startsWith" (Value.str "alpha") (Value.str "al")
    (by decide)

/-- C9: `compare("!=", l, r)` is the boolean negation of
`compare("=", l, r)` for all operands (both branches coerce both sides
with the same string coercion), and consequently evaluating
`Condition(f, "!=", v)` negates evaluating `Condition(f, "=", v)` on
every record — also through the date branch, whose guard does not depend
on the operator. -/
theorem neq_negation_of_eq (l r : Value) (row : RowT) (f v : String) :
    compare "!=" l r = !(compare "=" l r) ∧
    evaluate row (.condition f "!=" v) =
      !(evaluate row (.condition f "=" v)) := by
  refine ⟨compare_bang l r, ?_⟩
  rw [evaluate_condition, evaluate_condition]
  by_cases h : (isDateShape (jsString (row f)) && isDateShape v) = true
  · simp only [h, if_true, compare_bang]
  · simp only [Bool.not_eq_true] at h
    simp only [h, Bool.false_eq_true, if_false, compare_bang]

/-- C8: `getOps` returns exactly the operator table of §3 for each of the
six field types. -/
theorem getOps_table :
    getOps .string = ["contains", "=", "!="] ∧
    getOps .number = ["=", "!=", ">", ">=", "<", "<="] ∧
    getOps .date = ["=", "!=", ">", ">=", "<", "<="] ∧
    getOps .enum = ["=", "!="] ∧
    getOps .relation = ["=", "!="] ∧
    getOps .boolean = ["=", "!="] :=
  ⟨rfl, rfl, rfl, rfl, rfl, rfl⟩

/-- C10: in the `useOptions` model, issue a lookup (generation
`s.latest + 1`), then a newer one (generation `s.latest + 2`); if the
newer result is applied first and the stale result resolves afterwards,
the applied option list is the newer one — the stale resolution is
discarded because its generation is no longer the live one. -/
theorem useOptions_last_query_wins (s : OptionsState) (r1 r2 : List String) :
    (([OptEvent.issue, OptEvent.issue,
        OptEvent.resolve (s.latest + 2) r2,
        OptEvent.resolve (s.latest + 1) r1]).foldl optStep s).options = r2 := by
  show (optStep (optStep (optStep (optStep s .issue) .issue)
    (.resolve (s.latest + 2) r2)) (.resolve (s.latest + 1) r1)).options = r2
  have h2 : optStep (optStep s .issue) .issue =
      { latest := s.latest + 1 + 1, options := s.options } := rfl
  rw [h2]
  have h3 : optStep { latest := s.latest + 1 + 1, options := s.options }
      (OptEvent.resolve (s.latest + 2) r2) =
      { latest := s.latest + 1 + 1, options := r2 } := by
    rw [optStep]
    rw [if_pos rfl]
  rw [h3, optStep, if_neg (show ¬s.latest + 1 = s.latest + 1 + 1 by omega)]

end SmartSearch

